import Mathlib

/-!
Verification of the NeuraOS window-manager core.

The embedding below follows the Desktop component, which owns the window
registry: the `windows` list plus the `nextZIndex` allocation counter, and
the operations `openApp`, `closeWindow`, `minimizeWindow`, `maximizeWindow`,
`focusWindow`, `updateWindowPosition`, `updateWindowSize`. The Taskbar's
rendering logic (visible-window entries and quick-launch running markers) is
embedded from the Taskbar component. `Date.now()` is modelled as an explicit
natural-number timestamp supplied to each open command, since the source
derives the new window id from it via `toString`.
-/

namespace NeuraOS

/-- Top-left coordinate of a window in desktop space (the source's
`position: x, y` object; JS numbers are integers here). -/
structure Position where
  x : Int
  y : Int
deriving DecidableEq

/-- Width and height of a window (the source's `size` object). -/
structure WinSize where
  width : Int
  height : Int
deriving DecidableEq

/-- One window of the registry: the source's `AppWindow` interface. The
source's `component` field is the application-type tag. -/
structure AppWindow where
  id : String
  title : String
  component : String
  isMinimized : Bool
  isMaximized : Bool
  position : Position
  size : WinSize
  zIndex : Nat
deriving DecidableEq

/-- The Desktop component's registry state: the `windows` list and the
`nextZIndex` counter (`useState` hooks of the source). -/
structure DesktopState where
  windows : List AppWindow
  nextZIndex : Nat
deriving DecidableEq

/-- Initial state: `useState<AppWindow[]>([])` and `useState(1000)`. -/
def initialState : DesktopState :=
  { windows := [], nextZIndex := 1000 }

/-- The source's `focusWindow`: assign `nextZIndex` to the matching window,
clear its `isMinimized`, and bump the counter. -/
def focusWindow (s : DesktopState) (windowId : String) : DesktopState :=
  { windows := s.windows.map fun w =>
      if w.id = windowId then { w with zIndex := s.nextZIndex, isMinimized := false } else w,
    nextZIndex := s.nextZIndex + 1 }

/-- The source's `openApp`. If a window with the given application type
exists, it is focused; otherwise a new window is appended whose id is
`Date.now().toString()` (the `now` argument here), staggered by 30 pixels
per existing window, sized 800 by 600, carrying the current counter as its
z-index. The TS function returns `undefined` on every path, modelled as the
`none` component of the result pair. -/
def openApp (s : DesktopState) (appType title : String) (now : Nat) :
    DesktopState × Option String :=
  match s.windows.find? (fun w => w.component == appType) with
  | some existingWindow => (focusWindow s existingWindow.id, none)
  | none =>
    let newWindow : AppWindow :=
      { id := toString now
        title := title
        component := appType
        isMinimized := false
        isMaximized := false
        position := { x := 100 + (s.windows.length : Int) * 30,
                      y := 100 + (s.windows.length : Int) * 30 }
        size := { width := 800, height := 600 }
        zIndex := s.nextZIndex }
    ({ windows := s.windows ++ [newWindow], nextZIndex := s.nextZIndex + 1 }, none)

/-- The source's `closeWindow`: drop every window whose id matches. -/
def closeWindow (s : DesktopState) (windowId : String) : DesktopState :=
  { s with windows := s.windows.filter fun w => w.id != windowId }

/-- The source's `minimizeWindow`: set `isMinimized` on the matching window. -/
def minimizeWindow (s : DesktopState) (windowId : String) : DesktopState :=
  { s with windows := s.windows.map fun w =>
      if w.id = windowId then { w with isMinimized := true } else w }

/-- The source's `maximizeWindow`: toggle `isMaximized` and clear
`isMinimized` on the matching window. -/
def maximizeWindow (s : DesktopState) (windowId : String) : DesktopState :=
  { s with windows := s.windows.map fun w =>
      if w.id = windowId then { w with isMaximized := !w.isMaximized, isMinimized := false }
      else w }

/-- The source's `updateWindowPosition`: store the given position on the
matching window, unconditionally. -/
def updateWindowPosition (s : DesktopState) (windowId : String) (position : Position) :
    DesktopState :=
  { s with windows := s.windows.map fun w =>
      if w.id = windowId then { w with position := position } else w }

/-- The source's `updateWindowSize`: store the given size on the matching
window, unconditionally (no clamping happens here). -/
def updateWindowSize (s : DesktopState) (windowId : String) (size : WinSize) :
    DesktopState :=
  { s with windows := s.windows.map fun w =>
      if w.id = windowId then { w with size := size } else w }

/-- Modelled from the spec: the Window Instance Controller component (the
per-window drag and resize handler, not among the provided source files)
"enforces a minimum width/height floor before calling `resize`", with 300 as
the minimum width named by the spec's scenario; the clamped size is then
stored through the Desktop's `updateWindowSize`. -/
def handleResize (s : DesktopState) (windowId : String) (requested : WinSize) :
    DesktopState :=
  updateWindowSize s windowId
    { width := max 300 requested.width, height := max 300 requested.height }

/-- The Taskbar's open-window area: `windows.filter(w => !w.isMinimized)`,
rendered one entry per element. -/
def visibleTaskbarWindows (windows : List AppWindow) : List AppWindow :=
  windows.filter fun w => !w.isMinimized

/-- The Taskbar's quick-launch running marker:
`windows.some(w => w.component === app.component)`. -/
def quickLaunchIsOpen (windows : List AppWindow) (component : String) : Bool :=
  windows.any fun w => w.component == component

/-- Clicking a taskbar entry: the Desktop wires the Taskbar's
`onWindowClick` to `focusWindow`. -/
def taskbarWindowClick (s : DesktopState) (windowId : String) : DesktopState :=
  focusWindow s windowId

/-- One user-level command against the registry, as dispatched by the
Desktop component. An open command carries the `Date.now()` value it
observes. -/
inductive Cmd where
  | openA (appType title : String) (now : Nat)
  | closeW (windowId : String)
  | minimizeW (windowId : String)
  | maximizeW (windowId : String)
  | focusW (windowId : String)
  | moveW (windowId : String) (position : Position)
  | resizeW (windowId : String) (size : WinSize)
deriving DecidableEq

/-- State transition of a single command. -/
def step (s : DesktopState) : Cmd → DesktopState
  | .openA t ti now => (openApp s t ti now).1
  | .closeW i => closeWindow s i
  | .minimizeW i => minimizeWindow s i
  | .maximizeW i => maximizeWindow s i
  | .focusW i => focusWindow s i
  | .moveW i p => updateWindowPosition s i p
  | .resizeW i z => updateWindowSize s i z

/-- Run a command sequence from a state. -/
def run (s : DesktopState) (cs : List Cmd) : DesktopState :=
  cs.foldl step s

/-- The id strings the open commands of a trace would mint
(`Date.now().toString()` per open call), in order. -/
def openStampStrings : List Cmd → List String
  | [] => []
  | Cmd.openA _ _ now :: cs => toString now :: openStampStrings cs
  | _ :: cs => openStampStrings cs

/-- The id `openApp` would assign in state `s`, or `none` when the call
deduplicates onto an existing window of the same type. -/
def createdId (s : DesktopState) (appType : String) (now : Nat) : Option String :=
  match s.windows.find? (fun w => w.component == appType) with
  | some _ => none
  | none => some (toString now)

/-- `step` instrumented to record every id assigned at window creation. -/
def stepRec (p : DesktopState × List String) (c : Cmd) : DesktopState × List String :=
  match c with
  | .openA t ti now =>
      ((openApp p.1 t ti now).1,
        match createdId p.1 t now with
        | some i => p.2 ++ [i]
        | none => p.2)
  | c => (step p.1 c, p.2)

/-- Run a command sequence while recording created ids. -/
def runRec (p : DesktopState × List String) (cs : List Cmd) : DesktopState × List String :=
  cs.foldl stepRec p

/-- The registry invariant: pairwise distinct window ids, pairwise distinct
z-indices, every z-index strictly below the allocation counter, the counter
at or above the 1000 seed, and every z-index at or above the seed. -/
def RegistryInv (s : DesktopState) : Prop :=
  (s.windows.map fun w => w.id).Nodup ∧
  (s.windows.map fun w => w.zIndex).Nodup ∧
  (∀ w ∈ s.windows, w.zIndex < s.nextZIndex) ∧
  1000 ≤ s.nextZIndex ∧
  (∀ w ∈ s.windows, 1000 ≤ w.zIndex)

/-! Helper lemmas shared by several claims. -/

/-- A map that keeps every window's id keeps the list of ids. -/
lemma map_ids_of_preserve (l : List AppWindow) (f : AppWindow → AppWindow)
    (hid : ∀ w, (f w).id = w.id) :
    (l.map f).map (fun w => w.id) = l.map (fun w => w.id) := by
  rw [List.map_map]
  exact List.map_congr_left fun a _ => hid a

/-- A map that keeps every window's zIndex keeps the list of z-indices. -/
lemma map_zs_of_preserve (l : List AppWindow) (f : AppWindow → AppWindow)
    (hz : ∀ w, (f w).zIndex = w.zIndex) :
    (l.map f).map (fun w => w.zIndex) = l.map (fun w => w.zIndex) := by
  rw [List.map_map]
  exact List.map_congr_left fun a _ => hz a

/-- A per-window update that keeps ids and z-indices keeps the registry
invariant. -/
lemma registryInv_map (s : DesktopState) (f : AppWindow → AppWindow)
    (hid : ∀ w, (f w).id = w.id) (hz : ∀ w, (f w).zIndex = w.zIndex)
    (h : RegistryInv s) :
    RegistryInv { s with windows := s.windows.map f } := by
  obtain ⟨h1, h2, h3, h4, h5⟩ := h
  refine ⟨?_, ?_, ?_, h4, ?_⟩
  · rw [map_ids_of_preserve s.windows f hid]; exact h1
  · rw [map_zs_of_preserve s.windows f hz]; exact h2
  · intro w hw
    obtain ⟨w1, hw1, rfl⟩ := List.mem_map.mp hw
    rw [hz]; exact h3 w1 hw1
  · intro w hw
    obtain ⟨w1, hw1, rfl⟩ := List.mem_map.mp hw
    rw [hz]; exact h5 w1 hw1

/-! Theorems settling the claims. -/

/-- C6: `close(id)` is idempotent, and closing a nonexistent id leaves the
whole registry state (window list and counter) unchanged; no error is
possible since the operation is a total function. -/
theorem c6_closeWindow_idempotent_and_noop (s : DesktopState) (i : String) :
    closeWindow (closeWindow s i) i = closeWindow s i ∧
    ((∀ w ∈ s.windows, w.id ≠ i) → closeWindow s i = s) := by
  constructor
  · show ({ closeWindow s i with
        windows := (closeWindow s i).windows.filter fun w => w.id != i } : DesktopState) = _
    have : ((s.windows.filter fun w => w.id != i).filter fun w => w.id != i) =
        s.windows.filter fun w => w.id != i := by
      rw [List.filter_filter]
      exact List.filter_congr fun a _ => by cases h : a.id != i <;> simp [h]
    simp only [closeWindow, this]
  · intro h
    show ({ s with windows := s.windows.filter fun w => w.id != i } : DesktopState) = s
    have : (s.windows.filter fun w => w.id != i) = s.windows :=
      List.filter_eq_self.mpr fun a ha => by simpa using h a ha
    rw [this]

/-- C6 witness: a concrete registry with one window, closed twice with a
stale id and with its own id. -/
theorem c6_closeWindow_witness :
    closeWindow (closeWindow (run initialState [Cmd.openA "NotesApp" "Notes" 5]) "5") "5" =
      closeWindow (run initialState [Cmd.openA "NotesApp" "Notes" 5]) "5" ∧
    ((∀ w ∈ (run initialState [Cmd.openA "NotesApp" "Notes" 5]).windows, w.id ≠ "7") →
      closeWindow (run initialState [Cmd.openA "NotesApp" "Notes" 5]) "7" =
        run initialState [Cmd.openA "NotesApp" "Notes" 5]) :=
  ⟨(c6_closeWindow_idempotent_and_noop (run initialState [Cmd.openA "NotesApp" "Notes" 5]) "5").1,
   fun _ => (c6_closeWindow_idempotent_and_noop
     (run initialState [Cmd.openA "NotesApp" "Notes" 5]) "7").2 (by decide)⟩

/-- C7: toggling maximize twice in a row changes no window's stored position
or size (the source's `maximizeWindow` never touches them). -/
theorem c7_maximize_toggle_preserves_geometry (s : DesktopState) (i : String) :
    ((maximizeWindow (maximizeWindow s i) i).windows.map fun w => (w.position, w.size)) =
      s.windows.map fun w => (w.position, w.size) := by
  show ((s.windows.map _).map _).map _ = _
  rw [List.map_map, List.map_map]
  exact List.map_congr_left fun a _ => by
    by_cases h : a.id = i <;> simp [h]

/-- C8: `minimize(id)` leaves the counter unchanged and, window by window,
sets `isMinimized` on the matching window while keeping its id, title,
application type, position, size, z-index and maximized flag, and leaves
every other window's fields unchanged. -/
theorem c8_minimizeWindow_frame (s : DesktopState) (i : String) :
    (minimizeWindow s i).nextZIndex = s.nextZIndex ∧
    List.Forall₂ (fun a b =>
      b.id = a.id ∧ b.title = a.title ∧ b.component = a.component ∧
      b.position = a.position ∧ b.size = a.size ∧ b.zIndex = a.zIndex ∧
      b.isMaximized = a.isMaximized ∧
      b.isMinimized = (if a.id = i then true else a.isMinimized))
      s.windows (minimizeWindow s i).windows := by
  refine ⟨rfl, ?_⟩
  show List.Forall₂ _ s.windows (s.windows.map _)
  rw [List.forall₂_map_right_iff, List.forall₂_same]
  intro a _
  by_cases h : a.id = i <;> simp [h]

/-- C10: focusing a stale id leaves the window list unchanged but still
increments the z-index allocation counter, so the next allocation skips a
value. -/
theorem c10_focusWindow_stale_id (s : DesktopState) (i : String)
    (h : ∀ w ∈ s.windows, w.id ≠ i) :
    (focusWindow s i).windows = s.windows ∧
    (focusWindow s i).nextZIndex = s.nextZIndex + 1 := by
  refine ⟨?_, rfl⟩
  show s.windows.map _ = s.windows
  calc s.windows.map (fun w =>
        if w.id = i then { w with zIndex := s.nextZIndex, isMinimized := false } else w)
      = s.windows.map id := List.map_congr_left fun a ha => by simp [h a ha]
    _ = s.windows := List.map_id s.windows

/-- C10 witness: focusing id "7" in a registry holding only window "5". -/
theorem c10_focusWindow_stale_id_witness :
    (focusWindow (run initialState [Cmd.openA "NotesApp" "Notes" 5]) "7").windows =
      (run initialState [Cmd.openA "NotesApp" "Notes" 5]).windows ∧
    (focusWindow (run initialState [Cmd.openA "NotesApp" "Notes" 5]) "7").nextZIndex =
      (run initialState [Cmd.openA "NotesApp" "Notes" 5]).nextZIndex + 1 :=
  c10_focusWindow_stale_id (run initialState [Cmd.openA "NotesApp" "Notes" 5]) "7" (by decide)

/-- C1 (amended): focusing an existing id, in any state whose window ids
are pairwise distinct and whose z-indices are below the allocation counter
(the registry invariant, which holds in every state reachable by traces
whose open calls never repeat a creation timestamp), yields a window with
that id whose minimized flag is cleared and whose z-index is strictly above
every other window's. Without the distinct-id proviso the claim fails:
focusing an id shared by two same-millisecond windows raises both to the
same z-index. -/
theorem c1_focusWindow_topmost (s : DesktopState) (i : String)
    (hz : ∀ w ∈ s.windows, w.zIndex < s.nextZIndex)
    (hids : (s.windows.map fun w => w.id).Nodup)
    (hex : ∃ w ∈ s.windows, w.id = i) :
    ∃ wf ∈ (focusWindow s i).windows,
      wf.id = i ∧ wf.isMinimized = false ∧
      ∀ w2 ∈ (focusWindow s i).windows, w2 ≠ wf → w2.zIndex < wf.zIndex := by
  obtain ⟨w0, hw0, hid0⟩ := hex
  refine ⟨{ w0 with zIndex := s.nextZIndex, isMinimized := false }, ?_, hid0, rfl, ?_⟩
  · show _ ∈ s.windows.map _
    exact List.mem_map.mpr ⟨w0, hw0, by simp [hid0]⟩
  · intro w2 hw2 hne
    obtain ⟨w1, hw1, rfl⟩ := List.mem_map.mp hw2
    by_cases h : w1.id = i
    · exfalso
      have heq : w1 = w0 :=
        List.inj_on_of_nodup_map hids hw1 hw0 (by rw [h, hid0])
      apply hne
      rw [heq]
      simp [hid0]
    · simpa [h] using hz w1 hw1

/-- C1 witness: window "5" is opened, another window "6" opened on top of
it, "5" minimized, then focused: it ends unminimized and strictly topmost. -/
theorem c1_focusWindow_topmost_witness :
    ∃ wf ∈ (focusWindow (run initialState
        [Cmd.openA "NotesApp" "Notes" 5, Cmd.openA "Terminal" "Terminal" 6,
         Cmd.minimizeW "5"]) "5").windows,
      wf.id = "5" ∧ wf.isMinimized = false ∧
      ∀ w2 ∈ (focusWindow (run initialState
        [Cmd.openA "NotesApp" "Notes" 5, Cmd.openA "Terminal" "Terminal" 6,
         Cmd.minimizeW "5"]) "5").windows, w2 ≠ wf → w2.zIndex < wf.zIndex :=
  c1_focusWindow_topmost
    (run initialState
      [Cmd.openA "NotesApp" "Notes" 5, Cmd.openA "Terminal" "Terminal" 6,
       Cmd.minimizeW "5"]) "5" (by decide) (by decide) (by decide)

/-- C1 counterexample: after two same-millisecond opens both windows carry
id "5", a window with the focused id exists, yet focus "5" assigns the
counter to both, so no window with that id is strictly above every other
window — the claim as stated fails on this reachable state. -/
theorem c1_focus_collision_counterexample :
    (∃ w ∈ (run initialState
      [Cmd.openA "NotesApp" "Notes" 5, Cmd.openA "Terminal" "Terminal" 5]).windows,
      w.id = "5") ∧
    ¬ (∃ wf ∈ (focusWindow (run initialState
        [Cmd.openA "NotesApp" "Notes" 5, Cmd.openA "Terminal" "Terminal" 5]) "5").windows,
      wf.id = "5" ∧ wf.isMinimized = false ∧
      ∀ w2 ∈ (focusWindow (run initialState
        [Cmd.openA "NotesApp" "Notes" 5, Cmd.openA "Terminal" "Terminal" 5]) "5").windows,
        w2 ≠ wf → w2.zIndex < wf.zIndex) := by
  decide

/-- C2 (amended): `openApp` returns no id on either path; when a window of
the application type exists the window count is unchanged and that window
ends with the maximum z-index (in any state whose z-indices are below the
counter); otherwise a new window carrying the timestamp string as id is
appended, and that id is fresh whenever it differs from every existing id. -/
theorem c2_openApp_dedup_and_create (s : DesktopState) (appType title : String)
    (now : Nat) (hz : ∀ w ∈ s.windows, w.zIndex < s.nextZIndex) :
    (∀ w0, s.windows.find? (fun w => w.component == appType) = some w0 →
      (openApp s appType title now).1.windows.length = s.windows.length ∧
      (openApp s appType title now).2 = none ∧
      ∃ wf ∈ (openApp s appType title now).1.windows, wf.id = w0.id ∧
        ∀ w2 ∈ (openApp s appType title now).1.windows, w2.zIndex ≤ wf.zIndex) ∧
    (s.windows.find? (fun w => w.component == appType) = none →
      (openApp s appType title now).2 = none ∧
      ∃ wn, (openApp s appType title now).1.windows = s.windows ++ [wn] ∧
        wn.id = toString now ∧
        ((∀ w ∈ s.windows, w.id ≠ toString now) →
          wn.id ∉ s.windows.map fun w => w.id)) := by
  constructor
  · intro w0 hfind
    have hw0 : w0 ∈ s.windows := List.mem_of_find?_eq_some hfind
    have hopen : openApp s appType title now = (focusWindow s w0.id, none) := by
      rw [openApp, hfind]
    rw [hopen]
    refine ⟨by simp [focusWindow], rfl,
      ⟨{ w0 with zIndex := s.nextZIndex, isMinimized := false }, ?_, rfl, ?_⟩⟩
    · show _ ∈ s.windows.map _
      exact List.mem_map.mpr ⟨w0, hw0, by simp⟩
    · intro w2 hw2
      obtain ⟨w1, hw1, rfl⟩ := List.mem_map.mp hw2
      by_cases h : w1.id = w0.id
      · simp [h]
      · simp only [if_neg h]
        exact le_of_lt (hz w1 hw1)
  · intro hfind
    have hopen : (openApp s appType title now).1.windows =
        s.windows ++ [({ id := toString now, title := title, component := appType,
                         isMinimized := false, isMaximized := false,
                         position := { x := 100 + (s.windows.length : Int) * 30,
                                       y := 100 + (s.windows.length : Int) * 30 },
                         size := { width := 800, height := 600 },
                         zIndex := s.nextZIndex } : AppWindow)] ∧
        (openApp s appType title now).2 = none := by
      rw [openApp, hfind]
      exact ⟨rfl, rfl⟩
    refine ⟨hopen.2, _, hopen.1, rfl, ?_⟩
    intro hfresh hmem
    obtain ⟨w1, hw1, hid1⟩ := List.mem_map.mp hmem
    exact hfresh w1 hw1 hid1

/-- C2 witness: a registry holding the NotesApp window "5"; reopening
NotesApp deduplicates, opening Terminal at a fresh millisecond creates. -/
theorem c2_openApp_dedup_and_create_witness :
    (∀ w0, (run initialState [Cmd.openA "NotesApp" "Notes" 5]).windows.find?
        (fun w => w.component == "NotesApp") = some w0 →
      (openApp (run initialState [Cmd.openA "NotesApp" "Notes" 5])
        "NotesApp" "Notes" 6).1.windows.length =
        (run initialState [Cmd.openA "NotesApp" "Notes" 5]).windows.length ∧
      (openApp (run initialState [Cmd.openA "NotesApp" "Notes" 5])
        "NotesApp" "Notes" 6).2 = none ∧
      ∃ wf ∈ (openApp (run initialState [Cmd.openA "NotesApp" "Notes" 5])
        "NotesApp" "Notes" 6).1.windows, wf.id = w0.id ∧
        ∀ w2 ∈ (openApp (run initialState [Cmd.openA "NotesApp" "Notes" 5])
          "NotesApp" "Notes" 6).1.windows, w2.zIndex ≤ wf.zIndex) ∧
    ((run initialState [Cmd.openA "NotesApp" "Notes" 5]).windows.find?
        (fun w => w.component == "NotesApp") = none →
      (openApp (run initialState [Cmd.openA "NotesApp" "Notes" 5])
        "NotesApp" "Notes" 6).2 = none ∧
      ∃ wn, (openApp (run initialState [Cmd.openA "NotesApp" "Notes" 5])
          "NotesApp" "Notes" 6).1.windows =
          (run initialState [Cmd.openA "NotesApp" "Notes" 5]).windows ++ [wn] ∧
        wn.id = toString 6 ∧
        ((∀ w ∈ (run initialState [Cmd.openA "NotesApp" "Notes" 5]).windows,
            w.id ≠ toString 6) →
          wn.id ∉ (run initialState [Cmd.openA "NotesApp" "Notes" 5]).windows.map
            fun w => w.id)) :=
  c2_openApp_dedup_and_create (run initialState [Cmd.openA "NotesApp" "Notes" 5])
    "NotesApp" "Notes" 6 (by decide)

/-- C2 counterexample: the source's `openApp` returns no value, so the
existing window's id "5" is not returned on a dedup call; and a create call
whose timestamp collides with an existing window's creation millisecond
yields a second window with the same id "5", not a fresh one. -/
theorem c2_openApp_claim_counterexample :
    (openApp (run initialState [Cmd.openA "NotesApp" "Notes" 5])
      "NotesApp" "Notes" 6).2 ≠ some "5" ∧
    (∃ w ∈ (run initialState [Cmd.openA "NotesApp" "Notes" 5]).windows,
      w.id = "5" ∧ w.component = "NotesApp") ∧
    ((openApp (run initialState [Cmd.openA "NotesApp" "Notes" 5])
      "Terminal" "Terminal" 5).1.windows.map fun w => w.id) = ["5", "5"] := by
  refine ⟨by decide, by decide, by decide⟩

/-- C5: a resize gesture requesting a width below the 300 floor stores width
exactly 300 on the target window, never fails (the state is total and the
window count is preserved), and leaves every other window unchanged. -/
theorem c5_handleResize_clamps_width (s : DesktopState) (i : String)
    (requested : WinSize) (hw : requested.width < 300)
    (hex : ∃ w ∈ s.windows, w.id = i) :
    (handleResize s i requested).windows.length = s.windows.length ∧
    (∃ wf ∈ (handleResize s i requested).windows, wf.id = i ∧ wf.size.width = 300) ∧
    ∀ w2 ∈ (handleResize s i requested).windows, w2.id ≠ i → w2 ∈ s.windows := by
  obtain ⟨w0, hw0, hid0⟩ := hex
  refine ⟨by simp [handleResize, updateWindowSize], ?_, ?_⟩
  · refine ⟨{ w0 with size := { width := max 300 requested.width,
                                height := max 300 requested.height } }, ?_, hid0, ?_⟩
    · show _ ∈ s.windows.map _
      exact List.mem_map.mpr ⟨w0, hw0, by simp [hid0]⟩
    · show max 300 requested.width = 300
      omega
  · intro w2 hw2 hne
    obtain ⟨w1, hw1, rfl⟩ := List.mem_map.mp hw2
    by_cases h : w1.id = i
    · rw [if_pos h] at hne
      exact absurd h hne
    · simpa [h] using hw1

/-- C5 witness: requesting width 200 on the concrete window "5" stores 300. -/
theorem c5_handleResize_clamps_width_witness :
    (handleResize (run initialState [Cmd.openA "NotesApp" "Notes" 5]) "5"
      { width := 200, height := 500 }).windows.length =
      (run initialState [Cmd.openA "NotesApp" "Notes" 5]).windows.length ∧
    (∃ wf ∈ (handleResize (run initialState [Cmd.openA "NotesApp" "Notes" 5]) "5"
      { width := 200, height := 500 }).windows, wf.id = "5" ∧ wf.size.width = 300) ∧
    ∀ w2 ∈ (handleResize (run initialState [Cmd.openA "NotesApp" "Notes" 5]) "5"
      { width := 200, height := 500 }).windows, w2.id ≠ "5" →
      w2 ∈ (run initialState [Cmd.openA "NotesApp" "Notes" 5]).windows :=
  c5_handleResize_clamps_width (run initialState [Cmd.openA "NotesApp" "Notes" 5])
    "5" { width := 200, height := 500 } (by decide) (by decide)

/-- C9: the taskbar's open-window area holds exactly the non-minimized
windows (a sub-sequence of the registry, with one entry per non-minimized
window counted with multiplicity and none for minimized ones), clicking an
entry focuses that window's id (the entry's window reappears with the fresh
top z-index and cleared minimized flag), and a quick-launch icon is marked
running exactly when some window of its application type exists, minimized
or not. -/
theorem c9_taskbar_rendering (ws : List AppWindow) (comp : String) (s : DesktopState) :
    (visibleTaskbarWindows ws).Sublist ws ∧
    (∀ w : AppWindow, w.isMinimized = false →
      (visibleTaskbarWindows ws).count w = ws.count w) ∧
    (∀ w : AppWindow, w.isMinimized = true → (visibleTaskbarWindows ws).count w = 0) ∧
    (quickLaunchIsOpen ws comp = true ↔ ∃ w ∈ ws, w.component = comp) ∧
    (∀ e ∈ visibleTaskbarWindows s.windows,
      ∃ wf ∈ (taskbarWindowClick s e.id).windows,
        wf.id = e.id ∧ wf.zIndex = s.nextZIndex ∧ wf.isMinimized = false) := by
  refine ⟨List.filter_sublist ws, ?_, ?_, ?_, ?_⟩
  · intro w hw
    exact List.count_filter (by simp [hw])
  · intro w hw
    refine List.count_eq_zero.mpr fun hmem => ?_
    have := (List.mem_filter.mp hmem).2
    rw [hw] at this
    exact absurd this (by simp)
  · simp [quickLaunchIsOpen, List.any_eq_true]
  · intro e he
    have hmem : e ∈ s.windows := (List.mem_filter.mp he).1
    exact ⟨{ e with zIndex := s.nextZIndex, isMinimized := false },
      List.mem_map.mpr ⟨e, hmem, by simp⟩, rfl, rfl, rfl⟩

/-- C9 witness: a registry with a minimized Notes window and a visible
Terminal window; the taskbar facts at application type "NotesApp". -/
theorem c9_taskbar_rendering_witness :
    (visibleTaskbarWindows (run initialState
      [Cmd.openA "NotesApp" "Notes" 5, Cmd.openA "Terminal" "Terminal" 6,
       Cmd.minimizeW "5"]).windows).Sublist (run initialState
      [Cmd.openA "NotesApp" "Notes" 5, Cmd.openA "Terminal" "Terminal" 6,
       Cmd.minimizeW "5"]).windows ∧
    (∀ w : AppWindow, w.isMinimized = false →
      (visibleTaskbarWindows (run initialState
        [Cmd.openA "NotesApp" "Notes" 5, Cmd.openA "Terminal" "Terminal" 6,
         Cmd.minimizeW "5"]).windows).count w = (run initialState
        [Cmd.openA "NotesApp" "Notes" 5, Cmd.openA "Terminal" "Terminal" 6,
         Cmd.minimizeW "5"]).windows.count w) ∧
    (∀ w : AppWindow, w.isMinimized = true →
      (visibleTaskbarWindows (run initialState
        [Cmd.openA "NotesApp" "Notes" 5, Cmd.openA "Terminal" "Terminal" 6,
         Cmd.minimizeW "5"]).windows).count w = 0) ∧
    (quickLaunchIsOpen (run initialState
      [Cmd.openA "NotesApp" "Notes" 5, Cmd.openA "Terminal" "Terminal" 6,
       Cmd.minimizeW "5"]).windows "NotesApp" = true ↔
      ∃ w ∈ (run initialState
        [Cmd.openA "NotesApp" "Notes" 5, Cmd.openA "Terminal" "Terminal" 6,
         Cmd.minimizeW "5"]).windows, w.component = "NotesApp") ∧
    (∀ e ∈ visibleTaskbarWindows (run initialState
      [Cmd.openA "NotesApp" "Notes" 5, Cmd.openA "Terminal" "Terminal" 6,
       Cmd.minimizeW "5"]).windows,
      ∃ wf ∈ (taskbarWindowClick (run initialState
        [Cmd.openA "NotesApp" "Notes" 5, Cmd.openA "Terminal" "Terminal" 6,
         Cmd.minimizeW "5"]) e.id).windows,
        wf.id = e.id ∧ wf.zIndex = (run initialState
          [Cmd.openA "NotesApp" "Notes" 5, Cmd.openA "Terminal" "Terminal" 6,
           Cmd.minimizeW "5"]).nextZIndex ∧ wf.isMinimized = false) :=
  c9_taskbar_rendering (run initialState
    [Cmd.openA "NotesApp" "Notes" 5, Cmd.openA "Terminal" "Terminal" 6,
     Cmd.minimizeW "5"]).windows "NotesApp" (run initialState
    [Cmd.openA "NotesApp" "Notes" 5, Cmd.openA "Terminal" "Terminal" 6,
     Cmd.minimizeW "5"])

/-- The initial registry state satisfies the invariant. -/
lemma registryInv_initialState : RegistryInv initialState := by
  refine ⟨List.nodup_nil, List.nodup_nil, ?_, le_refl 1000, ?_⟩ <;> intro w hw <;> cases hw

/-- Closing a window preserves the registry invariant. -/
lemma registryInv_closeWindow (s : DesktopState) (i : String) (h : RegistryInv s) :
    RegistryInv (closeWindow s i) := by
  obtain ⟨h1, h2, h3, h4, h5⟩ := h
  have hsub : ((closeWindow s i).windows).Sublist s.windows := List.filter_sublist _
  exact ⟨(hsub.map _).nodup h1, (hsub.map _).nodup h2,
    fun w hw => h3 w (hsub.subset hw), h4, fun w hw => h5 w (hsub.subset hw)⟩

/-- Focusing any id (present or stale) preserves the registry invariant. -/
lemma registryInv_focusWindow (s : DesktopState) (i : String) (h : RegistryInv s) :
    RegistryInv (focusWindow s i) := by
  obtain ⟨h1, h2, h3, h4, h5⟩ := h
  have hpid : List.Pairwise (fun a b : AppWindow => a.id ≠ b.id) s.windows :=
    List.Pairwise.of_map (fun w : AppWindow => w.id) (fun _ _ hab => hab) h1
  have hpz : List.Pairwise (fun a b : AppWindow => a.zIndex ≠ b.zIndex) s.windows :=
    List.Pairwise.of_map (fun w : AppWindow => w.zIndex) (fun _ _ hab => hab) h2
  have hwin : (focusWindow s i).windows = s.windows.map (fun w =>
      if w.id = i then { w with zIndex := s.nextZIndex, isMinimized := false } else w) := rfl
  have hctr : (focusWindow s i).nextZIndex = s.nextZIndex + 1 := rfl
  refine ⟨?_, ?_, ?_, ?_, ?_⟩
  · rw [hwin, map_ids_of_preserve]
    · exact h1
    · intro w; by_cases hc : w.id = i <;> simp [hc]
  · rw [hwin, List.map_map]
    refine List.Pairwise.map _ (fun a b hab => hab) ?_
    refine (hpid.and hpz).imp_of_mem ?_
    intro a b ha hb hab
    by_cases ha' : a.id = i <;> by_cases hb' : b.id = i
    · exact absurd (ha'.trans hb'.symm) hab.1
    · simpa [Function.comp, ha', hb'] using (h3 b hb).ne'
    · simpa [Function.comp, ha', hb'] using (h3 a ha).ne
    · simpa [Function.comp, ha', hb'] using hab.2
  · intro w hw
    rw [hwin] at hw
    rw [hctr]
    obtain ⟨w1, hw1, rfl⟩ := List.mem_map.mp hw
    by_cases hc : w1.id = i
    · simp [hc, Nat.lt_succ_self]
    · simp only [if_neg hc]
      exact lt_trans (h3 w1 hw1) (Nat.lt_succ_self _)
  · rw [hctr]
    exact le_trans h4 (Nat.le_succ _)
  · intro w hw
    rw [hwin] at hw
    obtain ⟨w1, hw1, rfl⟩ := List.mem_map.mp hw
    by_cases hc : w1.id = i
    · simpa [hc] using h4
    · simpa [hc] using h5 w1 hw1

/-- Opening preserves the registry invariant, provided the minted id (the
timestamp string) does not collide with an existing window's id. -/
lemma registryInv_openApp (s : DesktopState) (t ti : String) (now : Nat)
    (h : RegistryInv s) (hfresh : ∀ w ∈ s.windows, w.id ≠ toString now) :
    RegistryInv (openApp s t ti now).1 := by
  obtain ⟨h1, h2, h3, h4, h5⟩ := h
  rw [openApp]
  cases hf : s.windows.find? (fun w => w.component == t) with
  | some w0 => exact registryInv_focusWindow s w0.id ⟨h1, h2, h3, h4, h5⟩
  | none =>
    refine ⟨?_, ?_, ?_, le_trans h4 (Nat.le_succ _), ?_⟩
    · rw [List.map_append, List.nodup_append]
      refine ⟨h1, by simp, ?_⟩
      intro a ha hb
      simp only [List.map_cons, List.map_nil, List.mem_singleton] at hb
      obtain ⟨w1, hw1, hid1⟩ := List.mem_map.mp ha
      exact hfresh w1 hw1 (hid1.trans hb)
    · rw [List.map_append, List.nodup_append]
      refine ⟨h2, by simp, ?_⟩
      intro a ha hb
      simp only [List.map_cons, List.map_nil, List.mem_singleton] at hb
      obtain ⟨w1, hw1, hz1⟩ := List.mem_map.mp ha
      exact (h3 w1 hw1).ne (hz1.trans hb)
    · intro w hw
      rcases List.mem_append.mp hw with hw | hw
      · exact lt_trans (h3 w hw) (Nat.lt_succ_self _)
      · simp only [List.mem_singleton] at hw
        rw [hw]
        exact Nat.lt_succ_self _
    · intro w hw
      rcases List.mem_append.mp hw with hw | hw
      · exact h5 w hw
      · simp only [List.mem_singleton] at hw
        rw [hw]
        exact h4

/-- The instrumented step agrees with `step` on the registry state. -/
lemma stepRec_fst (p : DesktopState × List String) (c : Cmd) :
    (stepRec p c).1 = step p.1 c := by
  cases c <;> rfl

/-- The instrumented run agrees with `run` on the registry state. -/
lemma runRec_fst (cs : List Cmd) : ∀ p : DesktopState × List String,
    (runRec p cs).1 = run p.1 cs := by
  induction cs with
  | nil => intro p; rfl
  | cons c cs ih =>
    intro p
    show (runRec (stepRec p c) cs).1 = run p.1 (c :: cs)
    rw [ih (stepRec p c), stepRec_fst]
    rfl

/-- An open command that deduplicates: the instrumented step focuses the
existing window and records nothing. -/
lemma stepRec_openA_dedup (p : DesktopState × List String) (t ti : String)
    (now : Nat) (w0 : AppWindow)
    (hf : p.1.windows.find? (fun w => w.component == t) = some w0) :
    stepRec p (Cmd.openA t ti now) = (focusWindow p.1 w0.id, p.2) := by
  simp [stepRec, openApp, createdId, hf]

/-- An open command that creates: the instrumented step appends the new
window and records its id. -/
lemma stepRec_openA_create (p : DesktopState × List String) (t ti : String)
    (now : Nat)
    (hf : p.1.windows.find? (fun w => w.component == t) = none) :
    stepRec p (Cmd.openA t ti now) =
      ({ windows := p.1.windows ++
          [({ id := toString now, title := ti, component := t,
              isMinimized := false, isMaximized := false,
              position := { x := 100 + (p.1.windows.length : Int) * 30,
                            y := 100 + (p.1.windows.length : Int) * 30 },
              size := { width := 800, height := 600 },
              zIndex := p.1.nextZIndex } : AppWindow)],
         nextZIndex := p.1.nextZIndex + 1 }, p.2 ++ [toString now]) := by
  simp [stepRec, openApp, createdId, hf]

/-- Master induction: running a trace whose open-timestamp strings avoid
each other and every already-recorded id keeps (a) every window id among
the recorded created ids, (b) the record duplicate-free, and (c) the
registry invariant. -/
lemma runRec_master : ∀ (cs : List Cmd) (p : DesktopState × List String),
    (∀ w ∈ p.1.windows, w.id ∈ p.2) →
    (p.2 ++ openStampStrings cs).Nodup →
    RegistryInv p.1 →
    (∀ w ∈ (runRec p cs).1.windows, w.id ∈ (runRec p cs).2) ∧
    (runRec p cs).2.Nodup ∧ RegistryInv (runRec p cs).1 := by
  intro cs
  induction cs with
  | nil =>
    intro p hin hnd hinv
    exact ⟨hin, by simpa [runRec, openStampStrings] using hnd, hinv⟩
  | cons c cs ih =>
    intro p hin hnd hinv
    show (∀ w ∈ (runRec (stepRec p c) cs).1.windows, w.id ∈ (runRec (stepRec p c) cs).2) ∧
      (runRec (stepRec p c) cs).2.Nodup ∧ RegistryInv (runRec (stepRec p c) cs).1
    apply ih (stepRec p c)
    · -- every window id of the new state is recorded
      cases c with
      | openA t ti now =>
        cases hf : p.1.windows.find? (fun w => w.component == t) with
        | some w0 =>
          rw [stepRec_openA_dedup p t ti now w0 hf]
          intro w hw
          have hwin : (focusWindow p.1 w0.id).windows = p.1.windows.map (fun w =>
              if w.id = w0.id then
                { w with zIndex := p.1.nextZIndex, isMinimized := false }
              else w) := rfl
          rw [hwin] at hw
          obtain ⟨w1, hw1, rfl⟩ := List.mem_map.mp hw
          by_cases hc : w1.id = w0.id <;> simpa [hc] using hin w1 hw1
        | none =>
          rw [stepRec_openA_create p t ti now hf]
          intro w hw
          rcases List.mem_append.mp hw with hw | hw
          · exact List.mem_append_left _ (hin w hw)
          · simp only [List.mem_singleton] at hw
            rw [hw]
            exact List.mem_append_right _ (by simp)
      | closeW j =>
        intro w hw
        exact hin w (List.mem_of_mem_filter hw)
      | minimizeW j =>
        intro w hw
        obtain ⟨w1, hw1, rfl⟩ := List.mem_map.mp hw
        by_cases hc : w1.id = j <;> simpa [hc] using hin w1 hw1
      | maximizeW j =>
        intro w hw
        obtain ⟨w1, hw1, rfl⟩ := List.mem_map.mp hw
        by_cases hc : w1.id = j <;> simpa [hc] using hin w1 hw1
      | focusW j =>
        intro w hw
        obtain ⟨w1, hw1, rfl⟩ := List.mem_map.mp hw
        by_cases hc : w1.id = j <;> simpa [hc] using hin w1 hw1
      | moveW j q =>
        intro w hw
        obtain ⟨w1, hw1, rfl⟩ := List.mem_map.mp hw
        by_cases hc : w1.id = j <;> simpa [hc] using hin w1 hw1
      | resizeW j q =>
        intro w hw
        obtain ⟨w1, hw1, rfl⟩ := List.mem_map.mp hw
        by_cases hc : w1.id = j <;> simpa [hc] using hin w1 hw1
    · -- the combined record and future stamps stay duplicate-free
      cases c with
      | openA t ti now =>
        cases hf : p.1.windows.find? (fun w => w.component == t) with
        | some w0 =>
          rw [stepRec_openA_dedup p t ti now w0 hf]
          have hsub : (p.2 ++ openStampStrings cs).Sublist
              (p.2 ++ (toString now :: openStampStrings cs)) :=
            (List.sublist_cons_self _ _).append_left _
          exact hsub.nodup (by simpa [openStampStrings] using hnd)
        | none =>
          rw [stepRec_openA_create p t ti now hf]
          show ((p.2 ++ [toString now]) ++ openStampStrings cs).Nodup
          have heq : p.2 ++ [toString now] ++ openStampStrings cs =
              p.2 ++ (toString now :: openStampStrings cs) := by
            simp
          rw [heq]
          simpa [openStampStrings] using hnd
      | closeW j => simpa [openStampStrings] using hnd
      | minimizeW j => simpa [openStampStrings] using hnd
      | maximizeW j => simpa [openStampStrings] using hnd
      | focusW j => simpa [openStampStrings] using hnd
      | moveW j q => simpa [openStampStrings] using hnd
      | resizeW j q => simpa [openStampStrings] using hnd
    · -- the registry invariant is preserved
      cases c with
      | openA t ti now =>
        rw [stepRec_fst]
        have hnotin : toString now ∉ p.2 := by
          have hnd2 : (p.2 ++ (toString now :: openStampStrings cs)).Nodup := by
            simpa [openStampStrings] using hnd
          rw [List.nodup_append] at hnd2
          exact fun hmem => hnd2.2.2 hmem (by simp)
        exact registryInv_openApp p.1 t ti now hinv
          (fun w hw heq => hnotin (heq ▸ hin w hw))
      | closeW j => exact registryInv_closeWindow p.1 j hinv
      | minimizeW j =>
        refine registryInv_map p.1 _ ?_ ?_ hinv
        · intro w; by_cases hc : w.id = j <;> simp [hc]
        · intro w; by_cases hc : w.id = j <;> simp [hc]
      | maximizeW j =>
        refine registryInv_map p.1 _ ?_ ?_ hinv
        · intro w; by_cases hc : w.id = j <;> simp [hc]
        · intro w; by_cases hc : w.id = j <;> simp [hc]
      | focusW j => exact registryInv_focusWindow p.1 j hinv
      | moveW j q =>
        refine registryInv_map p.1 _ ?_ ?_ hinv
        · intro w; by_cases hc : w.id = j <;> simp [hc]
        · intro w; by_cases hc : w.id = j <;> simp [hc]
      | resizeW j q =>
        refine registryInv_map p.1 _ ?_ ?_ hinv
        · intro w; by_cases hc : w.id = j <;> simp [hc]
        · intro w; by_cases hc : w.id = j <;> simp [hc]

/-- C3 (amended): along any command trace whose open calls never repeat a
creation-timestamp string, the ids recorded at window creation are pairwise
distinct for the whole session (so no id is ever assigned twice), and the
reachable registry's window ids are pairwise distinct; the instrumented run
agrees with the plain run on the registry state. -/
theorem c3_window_ids_unique (cs : List Cmd)
    (h : (openStampStrings cs).Nodup) :
    ((runRec (initialState, []) cs).2).Nodup ∧
    ((run initialState cs).windows.map fun w => w.id).Nodup ∧
    (runRec (initialState, []) cs).1 = run initialState cs := by
  have hlink : (runRec (initialState, []) cs).1 = run initialState cs :=
    runRec_fst cs (initialState, [])
  have hmaster := runRec_master cs (initialState, [])
    (fun w hw => absurd hw (by simp [initialState]))
    (by simpa using h) registryInv_initialState
  exact ⟨hmaster.2.1, hlink ▸ hmaster.2.2.1, hlink⟩

/-- C3 witness: two opens at distinct milliseconds 5 and 6. -/
theorem c3_window_ids_unique_witness :
    ((runRec (initialState, [])
        [Cmd.openA "NotesApp" "Notes" 5, Cmd.openA "Terminal" "Terminal" 6]).2).Nodup ∧
    ((run initialState
        [Cmd.openA "NotesApp" "Notes" 5,
         Cmd.openA "Terminal" "Terminal" 6]).windows.map fun w => w.id).Nodup ∧
    (runRec (initialState, [])
        [Cmd.openA "NotesApp" "Notes" 5, Cmd.openA "Terminal" "Terminal" 6]).1 =
      run initialState
        [Cmd.openA "NotesApp" "Notes" 5, Cmd.openA "Terminal" "Terminal" 6] :=
  c3_window_ids_unique
    [Cmd.openA "NotesApp" "Notes" 5, Cmd.openA "Terminal" "Terminal" 6] (by decide)

/-- C3 counterexample: two open calls of different application types in the
same millisecond (Date.now unchanged) both mint the id "5", so the registry
holds two windows with the same id. -/
theorem c3_id_collision_counterexample :
    ¬ (((run initialState
        [Cmd.openA "NotesApp" "Notes" 5,
         Cmd.openA "Terminal" "Terminal" 5]).windows.map fun w => w.id).Nodup) := by
  decide

/-- C4 (amended): in every state reachable by a trace whose open calls
never repeat a creation-timestamp string, the registry invariant holds (in
particular no two windows share a z-index, every z-index is below the
allocation counter and at or above the 1000 seed); and from any state at
all, no command ever decreases the counter. -/
theorem c4_zindex_registry_invariant :
    (∀ cs : List Cmd, (openStampStrings cs).Nodup →
      RegistryInv (run initialState cs)) ∧
    (∀ (s : DesktopState) (c : Cmd), s.nextZIndex ≤ (step s c).nextZIndex) := by
  constructor
  · intro cs h
    have hlink : (runRec (initialState, []) cs).1 = run initialState cs :=
      runRec_fst cs (initialState, [])
    have hmaster := runRec_master cs (initialState, [])
      (fun w hw => absurd hw (by simp [initialState]))
      (by simpa using h) registryInv_initialState
    exact hlink ▸ hmaster.2.2
  · intro s c
    cases c with
    | openA t ti now =>
      show s.nextZIndex ≤ (openApp s t ti now).1.nextZIndex
      rw [openApp]
      cases hf : s.windows.find? (fun w => w.component == t) with
      | some w0 => exact Nat.le_succ _
      | none => exact Nat.le_succ _
    | closeW j => exact Nat.le_refl _
    | minimizeW j => exact Nat.le_refl _
    | maximizeW j => exact Nat.le_refl _
    | focusW j => exact Nat.le_succ _
    | moveW j q => exact Nat.le_refl _
    | resizeW j q => exact Nat.le_refl _

/-- C4 counterexample: after two same-millisecond opens and one focus of the
shared id "5", two windows carry the same z-index 1002. -/
theorem c4_shared_zindex_counterexample :
    ¬ (((run initialState
        [Cmd.openA "NotesApp" "Notes" 5, Cmd.openA "Terminal" "Terminal" 5,
         Cmd.focusW "5"]).windows.map fun w => w.zIndex).Nodup) := by
  decide

end NeuraOS
